import Mathlib

/-!
Shallow embedding of the arcade-rs runtime core: the geometry module
(`src/phi/data.rs`), the input tracker (`src/phi/events.rs`), the frame
scheduler (`src/phi/mod.rs`), bullet kinematics (`src/views/bullets.rs`),
the enemy and collision pass of the gameplay view (`src/views/game.rs`),
and the main-menu selection logic (`src/views/main_menu.rs`).

`f64` values are modelled as rationals; decimal literals of the source are
taken at their written value.  SDL, rendering, audio and asset loading are
external collaborators and are not modelled.
-/

namespace Arcade

/-- `Rectangle` from `src/phi/data.rs`: `{x, y, w, h}` in logical units. -/
structure Rectangle where
  x : ℚ
  y : ℚ
  w : ℚ
  h : ℚ
deriving DecidableEq, Repr

/-- `Rectangle::move_inside` from `src/phi/data.rs` lines 26-41: clamp
`self` into `parent`, failing when `self` is wider or taller. -/
def Rectangle.move_inside (self parent : Rectangle) : Option Rectangle :=
  if self.w > parent.w ∨ self.h > parent.h then
    none
  else
    some {
      w := self.w
      h := self.h
      x := if self.x < parent.x then parent.x
           else if self.x + self.w ≥ parent.x + parent.w then parent.x + parent.w - self.w
           else self.x
      y := if self.y < parent.y then parent.y
           else if self.y + self.h ≥ parent.y + parent.h then parent.y + parent.h - self.h
           else self.y }

/-- `Rectangle::contains` from `src/phi/data.rs` lines 43-53: all four
corners of `rect` lie within `self`'s bounds inclusive. -/
def Rectangle.contains (self rect : Rectangle) : Bool :=
  let xmin := rect.x
  let xmax := xmin + rect.w
  let ymin := rect.y
  let ymax := ymin + rect.h
  decide (xmin ≥ self.x) && decide (xmin ≤ self.x + self.w) &&
  decide (xmax ≥ self.x) && decide (xmax ≤ self.x + self.w) &&
  decide (ymin ≥ self.y) && decide (ymin ≤ self.y + self.h) &&
  decide (ymax ≥ self.y) && decide (ymax ≤ self.y + self.h)

/-- `Rectangle::overlaps` from `src/phi/data.rs` lines 55-60: strict
axis-aligned intersection test. -/
def Rectangle.overlaps (self other : Rectangle) : Bool :=
  decide (self.x < other.x + other.w) &&
  decide (self.x + self.w > other.x) &&
  decide (self.y < other.y + other.h) &&
  decide (self.y + self.h > other.y)

/-- Modelled from the spec: `Rectangle::with_size` is used by
`src/views/game.rs` but its definition is not among the provided sources;
the spec describes rectangles built from a size alone, positioned at the
origin. -/
def Rectangle.with_size (w h : ℚ) : Rectangle :=
  { x := 0, y := 0, w := w, h := h }

/-- Modelled from the spec: `Rectangle::center` is used by
`src/views/game.rs` but its definition is not among the provided sources;
the spec's "hitbox centroid" is the midpoint of the rectangle. -/
def Rectangle.center (self : Rectangle) : ℚ × ℚ :=
  (self.x + self.w / 2, self.y + self.h / 2)

/-- Modelled from the spec: `Rectangle::center_at` is used by
`src/views/game.rs` but its definition is not among the provided sources;
per spec section 4.1 it "repositions a rectangle so its centroid is at
`point`". -/
def Rectangle.center_at (self : Rectangle) (point : ℚ × ℚ) : Rectangle :=
  { self with x := point.1 - self.w / 2, y := point.2 - self.h / 2 }

/-- Modelled from the spec: the `MaybeAlive` wrapper from `phi::data` is
used by `src/views/game.rs` but its definition is not among the provided
sources; it pairs a value with an alive flag. -/
structure MaybeAlive (α : Type) where
  alive : Bool
  value : α
deriving DecidableEq, Repr

/-- Modelled from the spec: `MaybeAlive::as_option` keeps the value
exactly when it is still alive. -/
def MaybeAlive.as_option {α : Type} (ma : MaybeAlive α) : Option α :=
  if ma.alive then some ma.value else none

/-! ## Input tracker (`src/phi/events.rs`, instantiated in `src/phi/mod.rs`) -/

/-- The logical keys of the `struct_events!` instantiation in
`src/phi/mod.rs` lines 11-23. -/
inductive Key where
  | key_escape
  | key_up
  | key_down
  | key_left
  | key_right
  | key_space
deriving DecidableEq, Repr

/-- Raw SDL events consumed by `Events::pump`; an unrecognized keycode is
`none`. -/
inductive GameEvent where
  | window_resized (size : ℕ × ℕ)
  | key_pressed (keycode : Option Key)
  | key_released (keycode : Option Key)
  | quit_requested
  | other
deriving DecidableEq, Repr

/-- `ImmediateEvents` from `src/phi/events.rs` lines 10-14: the one-frame
edge snapshot. -/
structure ImmediateEvents where
  resize : Option (ℕ × ℕ)
  key : Key → Option Bool
  quit : Bool

/-- `ImmediateEvents::new`: everything cleared. -/
def ImmediateEvents.new : ImmediateEvents :=
  { resize := none, key := fun _ => none, quit := false }

/-- `Events` from `src/phi/events.rs` lines 27-34: the snapshot plus the
persistent per-key held map. -/
structure Events where
  now : ImmediateEvents
  held : Key → Bool

/-- One iteration of the event loop body of `Events::pump`
(`src/phi/events.rs` lines 55-92). -/
def Events.processEvent (s : Events) (e : GameEvent) : Events :=
  match e with
  | .window_resized size =>
      { s with now := { s.now with resize := some size } }
  | .key_pressed (some k) =>
      let now' := if s.held k then s.now
                  else { s.now with key := Function.update s.now.key k (some true) }
      { s with now := now', held := Function.update s.held k true }
  | .key_pressed none => s
  | .key_released (some k) =>
      { s with now := { s.now with key := Function.update s.now.key k (some false) },
               held := Function.update s.held k false }
  | .key_released none => s
  | .quit_requested =>
      { s with now := { s.now with quit := true } }
  | .other => s

/-- `Events::pump` (`src/phi/events.rs` lines 47-94): reset the snapshot,
then process every pending event in order. -/
def Events.pump (s : Events) (events : List GameEvent) : Events :=
  events.foldl Events.processEvent { s with now := ImmediateEvents.new }

/-! ## Frame scheduler (`src/phi/mod.rs` lines 99-134) -/

/-- `interval = 1_000 / 60` from `src/phi/mod.rs` line 100 (integer
division of milliseconds). -/
def FRAME_INTERVAL : ℕ := 1000 / 60

/-- The loop-carried timing state of `spawn`'s main loop: `before`,
`last_second` and `fps` (`src/phi/mod.rs` lines 101-103). -/
structure LoopState where
  before : ℕ
  last_second : ℕ
  fps : ℕ
deriving DecidableEq, Repr

/-- Outcome of one scheduler iteration: either delay and re-measure
without advancing a frame, or advance exactly one frame with the measured
elapsed time in seconds. -/
inductive FrameDecision where
  | wait (delay : ℕ)
  | advance (next : LoopState) (elapsed : ℚ)
deriving DecidableEq, Repr

/-- One iteration of the `loop` in `spawn` (`src/phi/mod.rs` lines
105-122), up to the point where the view is invoked: measure `dt`, throttle
when it is below the interval, otherwise accept the frame and update the
FPS counters. -/
def frameStep (st : LoopState) (now : ℕ) : FrameDecision :=
  let dt := now - st.before
  let elapsed : ℚ := (dt : ℚ) / 1000
  if dt < FRAME_INTERVAL then
    .wait (FRAME_INTERVAL - dt)
  else
    let fps' := st.fps + 1
    if 1000 < now - st.last_second then
      .advance { before := now, last_second := now, fps := 0 } elapsed
    else
      .advance { before := now, last_second := st.last_second, fps := fps' } elapsed

/-! ## Bullets (`src/views/bullets.rs`) -/

def BULLET_SPEED : ℚ := 600
def BULLET_SPEED_SLOW : ℚ := 300
def BULLET_W : ℚ := 4
def BULLET_H : ℚ := 8

/-- `RectBullet` from `src/views/bullets.rs` lines 30-32. -/
structure RectBullet where
  rect : Rectangle
deriving DecidableEq, Repr

/-- `RectBullet::update` (`src/views/bullets.rs` lines 154-164): move up
by `BULLET_SPEED * dt`; delete only when `rect.x > w`, `w` being the
screen's output width. -/
def RectBullet.update (b : RectBullet) (screen : ℚ × ℚ) (dt : ℚ) : Option RectBullet :=
  let b := { b with rect := { b.rect with y := b.rect.y - BULLET_SPEED * dt } }
  if b.rect.x > screen.1 then none else some b

/-- `SineBullet` from `src/views/bullets.rs` lines 35-41. -/
structure SineBullet where
  pos_x : ℚ
  origin_y : ℚ
  amplitude : ℚ
  angular_vel : ℚ
  total_time : ℚ
deriving DecidableEq, Repr

/-- `SineBullet::rect` (`src/views/bullets.rs` lines 128-137); `sine`
abstracts `f64::sin`. -/
def SineBullet.rect (sine : ℚ → ℚ) (b : SineBullet) : Rectangle :=
  let dx := b.amplitude * sine (b.angular_vel * b.total_time)
  { x := b.pos_x + dx, y := b.origin_y, w := BULLET_W, h := BULLET_H }

/-- `SineBullet::update` (`src/views/bullets.rs` lines 106-117): advance
time and climb; delete only when the rectangle's `x` exceeds the screen
width. -/
def SineBullet.update (sine : ℚ → ℚ) (b : SineBullet) (screen : ℚ × ℚ) (dt : ℚ) :
    Option SineBullet :=
  let b := { b with total_time := b.total_time + dt,
                    origin_y := b.origin_y - BULLET_SPEED * dt }
  if (SineBullet.rect sine b).x > screen.1 then none else some b

/-- `DivergentBullet` from `src/views/bullets.rs` lines 21-27. -/
structure DivergentBullet where
  pos_x : ℚ
  origin_y : ℚ
  a : ℚ
  b : ℚ
  total_time : ℚ
deriving DecidableEq, Repr

/-- `DivergentBullet::rect` (`src/views/bullets.rs` lines 91-101). -/
def DivergentBullet.rect (db : DivergentBullet) : Rectangle :=
  let time_delta := db.total_time / db.b
  let dx := db.a * (time_delta ^ 3 - time_delta ^ 2)
  { x := db.pos_x + dx, y := db.origin_y, w := BULLET_W, h := BULLET_H }

/-- `DivergentBullet::update` (`src/views/bullets.rs` lines 66-80):
advance time and climb slowly; delete when the rectangle's top-left corner
leaves the screen bounds in any direction. -/
def DivergentBullet.update (db : DivergentBullet) (screen : ℚ × ℚ) (dt : ℚ) :
    Option DivergentBullet :=
  let db := { db with total_time := db.total_time + dt,
                      origin_y := db.origin_y - BULLET_SPEED_SLOW * dt }
  let rect := db.rect
  if rect.x > screen.1 ∨ rect.x < 0 ∨ rect.y > screen.2 ∨ rect.y < 0 then
    none
  else
    some db

/-- The spec's culling predicate, stated in its own words ("left the
visible bounds"): the bullet's rectangle is entirely outside the visible
screen area `[0, w] × [0, h]`.  Kept separate from the source-derived
update functions so the two can be compared. -/
def specLeftVisibleBounds (r : Rectangle) (screen : ℚ × ℚ) : Prop :=
  r.x + r.w < 0 ∨ r.x > screen.1 ∨ r.y + r.h < 0 ∨ r.y > screen.2

/-! ## Enemy (`Trump`) and animated sprite (`src/views/game.rs`) -/

def TRUMPS_TOTAL : ℕ := 16
def TRUMP_REST_FRAMES : ℕ := 4

/-- Modelled from the spec: `AnimatedSprite` lives in `phi::gfx`, which is
not among the provided sources.  Per spec section 3 it carries the ordered
frame regions, a current time accumulator and the rest-range flag; only
the fields consulted by `Trump::update` are modelled. -/
structure AnimatedSprite where
  sprites : List Rectangle
  current_time : ℚ
  is_resting : Bool
deriving DecidableEq, Repr

/-- Modelled from the spec: `AnimatedSprite::add_time` — spec section 4.3,
"`advance(dt)`: accumulates `dt` into `current_time`". -/
def AnimatedSprite.add_time (s : AnimatedSprite) (dt : ℚ) : AnimatedSprite :=
  { s with current_time := s.current_time + dt }

/-- `Trump` from `src/views/game.rs` lines 74-81 (the fields not consulted
by `update` are kinematic parameters of `rect()`, which `update` computes
and discards). -/
structure Trump where
  sprite : AnimatedSprite
  rect : Rectangle
  amplitude : ℚ
  angular_vel : ℚ
  pos_x : ℚ
  origin_y : ℚ
deriving DecidableEq, Repr

/-- The literal `0.21500000000000008` of `src/views/game.rs` line 113, at
its written value. -/
def TRUMP_SCALE_END : ℚ := 21500000000000008 / 100000000000000000

/-- `Trump::update` (`src/views/game.rs` lines 101-130): add `dt` to the
sprite clock; die after 8 seconds; once the clock passes
`TRUMP_SCALE_END` and the sprite is not yet resting, keep only the frames
with index ≥ 12 and set the resting flag. -/
def Trump.update (t : Trump) (dt : ℚ) : Option Trump :=
  let t := { t with sprite := t.sprite.add_time dt }
  if t.sprite.current_time ≥ 8 then
    none
  else if t.sprite.current_time ≥ TRUMP_SCALE_END ∧ t.sprite.is_resting = false then
    some { t with sprite := { t.sprite with
      sprites := (t.sprite.sprites.enum.filter (fun p => 12 ≤ p.1)).map Prod.snd,
      is_resting := true } }
  else
    some t

/-- A concrete enemy instance used to exercise `Trump.update`: a 16-frame
sprite at clock `1/5`, not yet resting. -/
def trumpSample : Trump :=
  Trump.mk (AnimatedSprite.mk (List.replicate 16 (Rectangle.mk 0 0 1 1)) (1/5) false)
    (Rectangle.mk 0 0 1 1) 15 10 0 0

/-! ## Explosions and the collision pass (`src/views/game.rs`) -/

def EXPLOSION_SIDE : ℚ := 96

/-- `Explosion` from `src/views/game.rs` lines 191-195 (the sprite clone
is rendering-only and not modelled). -/
structure Explosion where
  rect : Rectangle
  alive_since : ℚ
deriving DecidableEq, Repr

/-- `ExplosionFactory::at_center` (`src/views/game.rs` lines 258-269): an
explosion-sized rectangle centred at the given point, with a fresh
lifetime. -/
def explosionAtCenter (center : ℚ × ℚ) : Explosion :=
  { rect := (Rectangle.with_size EXPLOSION_SIDE EXPLOSION_SIDE).center_at center,
    alive_since := 0 }

/-- The inner bullet loop of the collision pass (`src/views/game.rs` lines
335-340): test the trump's rectangle against every transition bullet —
dead or not — marking each overlapping bullet dead; returns the updated
bullets and whether the trump is still alive.  Entities are represented by
their hitbox rectangles, the only data the pass consults. -/
def bulletsPass (trumpRect : Rectangle) :
    List (MaybeAlive Rectangle) → List (MaybeAlive Rectangle) × Bool
  | [] => ([], true)
  | b :: rest =>
      let hit := trumpRect.overlaps b.value
      let b' := if hit then { b with alive := false } else b
      let r := bulletsPass trumpRect rest
      (b' :: r.1, !hit && r.2)

/-- The trump `filter_map` of the collision pass (`src/views/game.rs`
lines 330-357): each trump runs the bullet loop, then the player-overlap
test; a dead trump is dropped and an explosion at its hitbox centre is
appended.  Returns (surviving trumps, transition bullets, explosions,
player alive). -/
def trumpsPass (playerRect : Rectangle) :
    List Rectangle → List (MaybeAlive Rectangle) → List Explosion →
    List Rectangle × List (MaybeAlive Rectangle) × List Explosion × Bool
  | [], bs, ex => ([], bs, ex, true)
  | t :: rest, bs, ex =>
      let pr := bulletsPass t bs
      let hitsPlayer := t.overlaps playerRect
      let trumpAlive := pr.2 && !hitsPlayer
      let ex' := if trumpAlive then ex else ex ++ [explosionAtCenter t.center]
      let r := trumpsPass playerRect rest pr.1 ex'
      (if trumpAlive then t :: r.1 else r.1, r.2.1, r.2.2.1, !hitsPlayer && r.2.2.2)

/-- The bullet-enemy-player collision section of `GameView::render`
(`src/views/game.rs` lines 323-361): wrap every bullet in `MaybeAlive`,
run the trump pass, then keep the bullets still alive.  Returns (surviving
bullets, surviving trumps, explosions, player alive). -/
def collisionPass (playerRect : Rectangle) (bullets trumps : List Rectangle)
    (explosions : List Explosion) :
    List Rectangle × List Rectangle × List Explosion × Bool :=
  let transition := bullets.map (fun b => MaybeAlive.mk true b)
  let r := trumpsPass playerRect trumps transition explosions
  (r.2.1.filterMap MaybeAlive.as_option, r.1, r.2.2.1, r.2.2.2)

/-! ## Main menu selection (`src/views/main_menu.rs`) -/

/-- The number of menu actions built by `MainMenuView::with_backgrounds`
(`src/views/main_menu.rs` lines 46-61): New Game and Quit. -/
def MAIN_MENU_ACTIONS : ℤ := 2

/-- The selection-update logic of `MainMenuView::render`
(`src/views/main_menu.rs` lines 78-90): a key-up edge decrements and wraps
below zero to `len - 1`; a key-down edge increments and wraps at `len` to
zero.  `selected` is an `i8` in the source; within the menu's range the
arithmetic never overflows, so it is modelled on ℤ. -/
def menuNavigate (len selected : ℤ) (up_edge down_edge : Bool) : ℤ :=
  let s1 := if up_edge then
              let s := selected - 1
              if s < 0 then len - 1 else s
            else selected
  if down_edge then
    let s := s1 + 1
    if s ≥ len then 0 else s
  else s1

/-! ## Theorems -/

/-- Claim C5: for rectangles `self` and `bounds` with non-negative widths and
heights, `move_inside` returns `some r` with `r` contained in `bounds`
(inclusive, per `contains`) and with `self`'s width and height exactly when
`self.w ≤ bounds.w` and `self.h ≤ bounds.h`, and returns `none` otherwise. -/
theorem C5_move_inside_clamps (self parent : Rectangle)
    (hw : 0 ≤ self.w) (hh : 0 ≤ self.h) (hpw : 0 ≤ parent.w) (hph : 0 ≤ parent.h) :
    (self.w ≤ parent.w ∧ self.h ≤ parent.h →
       ∃ r, self.move_inside parent = some r ∧ parent.contains r = true ∧
            r.w = self.w ∧ r.h = self.h) ∧
    (¬(self.w ≤ parent.w ∧ self.h ≤ parent.h) →
       self.move_inside parent = none) := by
  constructor
  · rintro ⟨h1, h2⟩
    have hcond : ¬(self.w > parent.w ∨ self.h > parent.h) := by
      push_neg
      exact ⟨h1, h2⟩
    simp only [Rectangle.move_inside, if_neg hcond]
    refine ⟨_, rfl, ?_, rfl, rfl⟩
    simp only [Rectangle.contains, Bool.and_eq_true, decide_eq_true_eq, ge_iff_le]
    split_ifs <;>
      refine ⟨⟨⟨⟨⟨⟨⟨?_, ?_⟩, ?_⟩, ?_⟩, ?_⟩, ?_⟩, ?_⟩, ?_⟩ <;> linarith
  · intro h
    rcases not_and_or.mp h with h' | h' <;>
      simp only [Rectangle.move_inside] <;>
      rw [if_pos]
    · exact Or.inl (lt_of_not_le h')
    · exact Or.inr (lt_of_not_le h')

/-- Witness for C5 at `self = ⟨-3, 10, 1, 1⟩`, `bounds = ⟨0, 0, 8, 8⟩`. -/
theorem C5_move_inside_clamps_witness :
    ((0 : ℚ) ≤ (Rectangle.mk (-3) 10 1 1).w ∧ (0 : ℚ) ≤ (Rectangle.mk (-3) 10 1 1).h ∧
     (0 : ℚ) ≤ (Rectangle.mk 0 0 8 8).w ∧ (0 : ℚ) ≤ (Rectangle.mk 0 0 8 8).h) ∧
    (((Rectangle.mk (-3) 10 1 1).w ≤ (Rectangle.mk 0 0 8 8).w ∧
      (Rectangle.mk (-3) 10 1 1).h ≤ (Rectangle.mk 0 0 8 8).h →
        ∃ r, (Rectangle.mk (-3) 10 1 1).move_inside (Rectangle.mk 0 0 8 8) = some r ∧
             (Rectangle.mk 0 0 8 8).contains r = true ∧
             r.w = (Rectangle.mk (-3) 10 1 1).w ∧ r.h = (Rectangle.mk (-3) 10 1 1).h) ∧
     (¬((Rectangle.mk (-3) 10 1 1).w ≤ (Rectangle.mk 0 0 8 8).w ∧
        (Rectangle.mk (-3) 10 1 1).h ≤ (Rectangle.mk 0 0 8 8).h) →
        (Rectangle.mk (-3) 10 1 1).move_inside (Rectangle.mk 0 0 8 8) = none)) :=
  ⟨⟨by norm_num, by norm_num, by norm_num, by norm_num⟩,
   C5_move_inside_clamps (Rectangle.mk (-3) 10 1 1) (Rectangle.mk 0 0 8 8)
     (by norm_num) (by norm_num) (by norm_num) (by norm_num)⟩

/-- Claim C6 counterexample: the degenerate rectangle `⟨0,0,0,0⟩` has
`w, h ≥ 0` but does not overlap itself, because `overlaps` is strict; this
refutes self-overlap for all rectangles with `w, h ≥ 0`. -/
theorem C6_overlaps_counterexample :
    (0 : ℚ) ≤ (Rectangle.mk 0 0 0 0).w ∧ (0 : ℚ) ≤ (Rectangle.mk 0 0 0 0).h ∧
    Rectangle.overlaps (Rectangle.mk 0 0 0 0) (Rectangle.mk 0 0 0 0) = false :=
  ⟨by norm_num, by norm_num, by norm_num [Rectangle.overlaps]⟩

/-- Claim C6 (amended): for every rectangle `r` with strictly positive width
and height, `overlaps r r` is true; and for any translation distance
`d ≥ r.w` along the x-axis, `r` does not overlap its translate — in
particular rectangles touching only at an edge (`d = r.w`) do not overlap. -/
theorem C6_overlaps_self_translate (r : Rectangle) (d : ℚ)
    (hw : 0 < r.w) (hh : 0 < r.h) (hd : r.w ≤ d) :
    r.overlaps r = true ∧
    r.overlaps (Rectangle.mk (r.x + d) r.y r.w r.h) = false := by
  constructor
  · simp only [Rectangle.overlaps, Bool.and_eq_true, decide_eq_true_eq]
    refine ⟨⟨⟨?_, ?_⟩, ?_⟩, ?_⟩ <;> linarith
  · simp [Rectangle.overlaps]
    intros
    linarith

/-- Witness for the amended C6 at `r = ⟨0, 0, 2, 3⟩`, `d = 2`. -/
theorem C6_overlaps_self_translate_witness :
    ((0 : ℚ) < (Rectangle.mk 0 0 2 3).w ∧ (0 : ℚ) < (Rectangle.mk 0 0 2 3).h ∧
     (Rectangle.mk 0 0 2 3).w ≤ (2 : ℚ)) ∧
    (Rectangle.mk 0 0 2 3).overlaps (Rectangle.mk 0 0 2 3) = true ∧
    (Rectangle.mk 0 0 2 3).overlaps
      (Rectangle.mk ((Rectangle.mk 0 0 2 3).x + 2) (Rectangle.mk 0 0 2 3).y
        (Rectangle.mk 0 0 2 3).w (Rectangle.mk 0 0 2 3).h) = false :=
  ⟨⟨by norm_num, by norm_num, by norm_num⟩,
   (C6_overlaps_self_translate (Rectangle.mk 0 0 2 3) 2
     (by norm_num) (by norm_num) (by norm_num)).1,
   (C6_overlaps_self_translate (Rectangle.mk 0 0 2 3) 2
     (by norm_num) (by norm_num) (by norm_num)).2⟩

/-- Claim C10: starting in range, the menu selection stays in
`[0, len)` after the per-frame navigation update; a key-up edge at index 0
wraps to `len - 1` and a key-down edge at `len - 1` wraps to 0, so indexing
the action list with the selection never goes out of bounds. -/
theorem C10_menu_selection_invariant (len selected : ℤ) (u d : Bool)
    (hlen : 1 ≤ len) (h0 : 0 ≤ selected) (h1 : selected < len) :
    (0 ≤ menuNavigate len selected u d ∧ menuNavigate len selected u d < len) ∧
    menuNavigate len 0 true false = len - 1 ∧
    menuNavigate len (len - 1) false true = 0 := by
  simp only [menuNavigate]
  refine ⟨?_, ?_, ?_⟩ <;> split_ifs <;> first | omega | simp_all

/-- Witness for C10 at the menu's real parameters: two actions, selection 0,
a key-up edge. -/
theorem C10_menu_selection_invariant_witness :
    ((1 : ℤ) ≤ MAIN_MENU_ACTIONS ∧ (0 : ℤ) ≤ 0 ∧ (0 : ℤ) < MAIN_MENU_ACTIONS) ∧
    (0 ≤ menuNavigate MAIN_MENU_ACTIONS 0 true false ∧
     menuNavigate MAIN_MENU_ACTIONS 0 true false < MAIN_MENU_ACTIONS) ∧
    menuNavigate MAIN_MENU_ACTIONS 0 true false = MAIN_MENU_ACTIONS - 1 ∧
    menuNavigate MAIN_MENU_ACTIONS (MAIN_MENU_ACTIONS - 1) false true = 0 :=
  ⟨⟨by decide, by decide, by decide⟩,
   C10_menu_selection_invariant MAIN_MENU_ACTIONS 0 true false
     (by decide) (by decide) (by decide)⟩

/-- Claim C7: with the configured interval `1000 / 60 = 16` ms, a measured
delta strictly below the interval produces no frame advance — the scheduler
waits the remaining time and re-measures with `before` unchanged — while a
delta of at least the interval advances exactly one frame whose elapsed time
is the measured delta in seconds, not a fixed constant. -/
theorem C7_scheduler_step (st : LoopState) (now : ℕ) :
    FRAME_INTERVAL = 16 ∧
    (now - st.before < FRAME_INTERVAL →
       frameStep st now = .wait (FRAME_INTERVAL - (now - st.before))) ∧
    (FRAME_INTERVAL ≤ now - st.before →
       ∃ st', frameStep st now = .advance st' (((now - st.before : ℕ) : ℚ) / 1000) ∧
              st'.before = now) := by
  refine ⟨rfl, ?_, ?_⟩
  · intro h
    simp only [frameStep, if_pos h]
  · intro h
    simp only [frameStep, if_neg (not_lt.mpr h)]
    by_cases h2 : 1000 < now - st.last_second
    · exact ⟨_, by rw [if_pos h2], rfl⟩
    · exact ⟨_, by rw [if_neg h2], rfl⟩

/-- Witness for C7: from `before = 0`, a 5 ms delta waits and a 20 ms delta
advances one frame with elapsed time `20/1000` seconds. -/
theorem C7_scheduler_step_witness :
    (FRAME_INTERVAL = 16 ∧
     (5 - (LoopState.mk 0 0 0).before < FRAME_INTERVAL →
        frameStep (LoopState.mk 0 0 0) 5 =
          .wait (FRAME_INTERVAL - (5 - (LoopState.mk 0 0 0).before)))) ∧
    (FRAME_INTERVAL ≤ 20 - (LoopState.mk 0 0 0).before →
       ∃ st', frameStep (LoopState.mk 0 0 0) 20 =
                .advance st' (((20 - (LoopState.mk 0 0 0).before : ℕ) : ℚ) / 1000) ∧
              st'.before = 20) :=
  ⟨⟨(C7_scheduler_step (LoopState.mk 0 0 0) 5).1,
    (C7_scheduler_step (LoopState.mk 0 0 0) 5).2.1⟩,
   (C7_scheduler_step (LoopState.mk 0 0 0) 20).2.2⟩

/-- Pumping an empty event queue resets the snapshot but leaves the
persistent held map untouched. -/
theorem pump_nil_held (s : Events) : (s.pump []).held = s.held := rfl

/-- Iterating empty-queue pumps any number of times leaves the held map
untouched. -/
theorem iterate_pump_nil_held (n : ℕ) (s : Events) :
    ((fun st => Events.pump st []) ^[n] s).held = s.held := by
  induction n generalizing s with
  | zero => rfl
  | succ m ih =>
      rw [Function.iterate_succ_apply]
      exact ih _

/-- After at least one empty-queue pump the snapshot is fully cleared. -/
theorem iterate_pump_nil_now (n : ℕ) (hn : 0 < n) (s : Events) :
    ((fun st => Events.pump st []) ^[n] s).now = ImmediateEvents.new := by
  obtain ⟨m, rfl⟩ : ∃ m, n = m + 1 := ⟨n - 1, by omega⟩
  rw [Function.iterate_succ_apply']
  rfl

/-- Claim C4: a down-event for a key not already held yields the snapshot
entry `some true` on the down frame and `none` on every one of the `n`
subsequent event-free frames, while the held flag stays true throughout; a
repeated down event while the key is already held leaves the snapshot entry
cleared (no edge) with the key still held. -/
theorem C4_input_edge (s : Events) (k : Key) (n : ℕ) (hn : 0 < n) :
    (s.held k = false →
       (s.pump [GameEvent.key_pressed (some k)]).now.key k = some true ∧
       (s.pump [GameEvent.key_pressed (some k)]).held k = true ∧
       ((fun st => Events.pump st []) ^[n]
          (s.pump [GameEvent.key_pressed (some k)])).now.key k = none ∧
       ((fun st => Events.pump st []) ^[n]
          (s.pump [GameEvent.key_pressed (some k)])).held k = true) ∧
    (s.held k = true →
       (s.pump [GameEvent.key_pressed (some k)]).now.key k = none ∧
       (s.pump [GameEvent.key_pressed (some k)]).held k = true) := by
  constructor
  · intro h
    refine ⟨?_, ?_, ?_, ?_⟩
    · simp [Events.pump, Events.processEvent, h, Function.update_same]
    · simp [Events.pump, Events.processEvent, h, Function.update_same]
    · rw [iterate_pump_nil_now n hn]
      rfl
    · rw [iterate_pump_nil_held]
      simp [Events.pump, Events.processEvent, h, Function.update_same]
  · intro h
    constructor
    · simp [Events.pump, Events.processEvent, h, ImmediateEvents.new]
    · simp [Events.pump, Events.processEvent, h, Function.update_same]

/-- Witness for C4: from the all-released initial state, a space-key
down-event followed by one event-free frame. -/
theorem C4_input_edge_witness :
    0 < 1 ∧
    (((Events.mk ImmediateEvents.new (fun _ => false)).held Key.key_space = false →
       ((Events.mk ImmediateEvents.new (fun _ => false)).pump
          [GameEvent.key_pressed (some Key.key_space)]).now.key Key.key_space = some true ∧
       ((Events.mk ImmediateEvents.new (fun _ => false)).pump
          [GameEvent.key_pressed (some Key.key_space)]).held Key.key_space = true ∧
       ((fun st => Events.pump st []) ^[1]
          ((Events.mk ImmediateEvents.new (fun _ => false)).pump
            [GameEvent.key_pressed (some Key.key_space)])).now.key Key.key_space = none ∧
       ((fun st => Events.pump st []) ^[1]
          ((Events.mk ImmediateEvents.new (fun _ => false)).pump
            [GameEvent.key_pressed (some Key.key_space)])).held Key.key_space = true) ∧
     ((Events.mk ImmediateEvents.new (fun _ => false)).held Key.key_space = true →
       ((Events.mk ImmediateEvents.new (fun _ => false)).pump
          [GameEvent.key_pressed (some Key.key_space)]).now.key Key.key_space = none ∧
       ((Events.mk ImmediateEvents.new (fun _ => false)).pump
          [GameEvent.key_pressed (some Key.key_space)]).held Key.key_space = true)) :=
  ⟨by decide,
   C4_input_edge (Events.mk ImmediateEvents.new (fun _ => false)) Key.key_space 1 (by decide)⟩

/-- Claim C9: a key-up event is not filtered by the held state — for every
prior state, held or not, pumping it sets the key's snapshot entry to
`some false` and clears the persistent held flag. -/
theorem C9_keyup_unconditional (s : Events) (k : Key) :
    (s.pump [GameEvent.key_released (some k)]).now.key k = some false ∧
    (s.pump [GameEvent.key_released (some k)]).held k = false := by
  constructor <;>
    simp [Events.pump, Events.processEvent, Function.update_same]

/-- Keeping the elements of an indexed enumeration whose index is at least
`n` yields exactly the elements from position `n - k` on. -/
theorem enumFrom_filter_ge_map_snd {α : Type} (l : List α) :
    ∀ k n : ℕ,
      ((l.enumFrom k).filter (fun p => n ≤ p.1)).map Prod.snd = l.drop (n - k) := by
  induction l with
  | nil => intro k n; simp
  | cons a rest ih =>
      intro k n
      by_cases h : n ≤ k
      · have h0 : n - k = 0 := by omega
        have h1 : n - (k + 1) = 0 := by omega
        simp [List.enumFrom, List.filter_cons, h, ih, h0, h1]
      · have h1 : n - k = (n - (k + 1)) + 1 := by omega
        simp [List.enumFrom, List.filter_cons, h, ih, h1]

/-- The index-≥-12 truncation performed by `Trump::update` keeps exactly the
trailing frames from position 12 on. -/
theorem enum_filter_ge_12 {α : Type} (l : List α) :
    ((l.enum.filter (fun p => 12 ≤ p.1)).map Prod.snd) = l.drop 12 := by
  simpa using enumFrom_filter_ge_map_snd l 0 12

/-- Claim C8: once the sprite clock crosses the playable-frame threshold
(while the enemy stays alive), `Trump::update` truncates the frame sequence
to the trailing rest frames (the last `TRUMP_REST_FRAMES` of the
`TRUMPS_TOTAL` frames) and sets the resting flag; and once resting, every
subsequent update keeps the flag set and never re-expands the frame
sequence. -/
theorem C8_trump_rest_transition (t : Trump) (dt : ℚ) :
    (t.sprite.is_resting = false →
     TRUMP_SCALE_END ≤ t.sprite.current_time + dt →
     t.sprite.current_time + dt < 8 →
       ∃ t', t.update dt = some t' ∧
         t'.sprite.is_resting = true ∧
         t'.sprite.sprites = t.sprite.sprites.drop 12 ∧
         (t.sprite.sprites.length = TRUMPS_TOTAL →
            t'.sprite.sprites.length = TRUMP_REST_FRAMES)) ∧
    (t.sprite.is_resting = true →
       ∀ t', t.update dt = some t' →
         t'.sprite.is_resting = true ∧ t'.sprite.sprites = t.sprite.sprites) := by
  constructor
  · intro h1 h2 h3
    have hc1 : ¬(t.sprite.current_time + dt ≥ 8) := by linarith
    have hc2 : t.sprite.current_time + dt ≥ TRUMP_SCALE_END ∧ t.sprite.is_resting = false :=
      ⟨h2, h1⟩
    refine ⟨Trump.mk
        (AnimatedSprite.mk ((t.sprite.sprites.enum.filter (fun p => 12 ≤ p.1)).map Prod.snd)
          (t.sprite.current_time + dt) true)
        t.rect t.amplitude t.angular_vel t.pos_x t.origin_y, ?_, rfl, ?_, ?_⟩
    · simp only [Trump.update, AnimatedSprite.add_time]
      rw [if_neg hc1, if_pos hc2]
    · exact enum_filter_ge_12 _
    · intro hlen
      simp [enum_filter_ge_12, hlen, TRUMPS_TOTAL, TRUMP_REST_FRAMES]
  · intro h1 t' heq
    by_cases h8 : t.sprite.current_time + dt ≥ 8
    · simp [Trump.update, AnimatedSprite.add_time, h8] at heq
    · simp only [Trump.update, AnimatedSprite.add_time, h1] at heq
      rw [if_neg h8] at heq
      rw [if_neg (by simp [h1])] at heq
      obtain rfl : _ = t' := Option.some.inj heq
      exact ⟨rfl, rfl⟩

/-- Witness for C8: the sample enemy advanced by `1/10` crosses the
threshold and truncates to the trailing 4 frames; once resting, a further
update preserves the truncated frames. -/
theorem C8_trump_rest_transition_witness :
    TRUMP_SCALE_END ≤ (1 : ℚ) / 5 + 1 / 10 ∧
    ((1 : ℚ) / 5 + 1 / 10 < 8) ∧
    ((trumpSample.sprite.is_resting = false →
      TRUMP_SCALE_END ≤ trumpSample.sprite.current_time + 1/10 →
      trumpSample.sprite.current_time + 1/10 < 8 →
        ∃ t', trumpSample.update (1/10) = some t' ∧
          t'.sprite.is_resting = true ∧
          t'.sprite.sprites = trumpSample.sprite.sprites.drop 12 ∧
          (trumpSample.sprite.sprites.length = TRUMPS_TOTAL →
             t'.sprite.sprites.length = TRUMP_REST_FRAMES)) ∧
     (trumpSample.sprite.is_resting = true →
       ∀ t', trumpSample.update (1/10) = some t' →
         t'.sprite.is_resting = true ∧
         t'.sprite.sprites = trumpSample.sprite.sprites)) :=
  ⟨by norm_num [TRUMP_SCALE_END], by norm_num,
   C8_trump_rest_transition trumpSample (1/10)⟩

/-- Claim C3 counterexample: a straight bullet at `x = 100` moved by
`dt = 1` ends fully above the visible screen (its rectangle
`⟨100, -596, 4, 8⟩` satisfies the spec's "left the visible bounds"
predicate), yet `RectBullet::update` keeps it (`some`, not `none`),
because the code only tests `rect.x > screen width`. -/
theorem C3_rectbullet_cull_counterexample :
    RectBullet.update (RectBullet.mk (Rectangle.mk 100 4 4 8)) (800, 600) 1 =
      some (RectBullet.mk (Rectangle.mk 100 (-596) 4 8)) ∧
    specLeftVisibleBounds (Rectangle.mk 100 (-596) 4 8) (800, 600) := by
  constructor
  · norm_num [RectBullet.update, BULLET_SPEED]
  · norm_num [specLeftVisibleBounds]

/-- Claim C3 (amended): after the per-frame kinematic update, `RectBullet`
and `SineBullet` return `none` exactly when the updated rectangle's `x`
exceeds the screen width — the vertical position is never tested, so a
bullet leaving through the top of the screen is kept — while
`DivergentBullet` returns `none` exactly when the updated rectangle's
top-left corner lies outside the screen bounds in any direction. -/
theorem C3_bullet_cull_conditions (screen : ℚ × ℚ) (dt : ℚ) (rb : RectBullet)
    (sb : SineBullet) (db : DivergentBullet) (sine : ℚ → ℚ) :
    (rb.update screen dt = none ↔ rb.rect.x > screen.1) ∧
    (SineBullet.update sine sb screen dt = none ↔
       (SineBullet.rect sine
         (SineBullet.mk sb.pos_x (sb.origin_y - BULLET_SPEED * dt)
           sb.amplitude sb.angular_vel (sb.total_time + dt))).x > screen.1) ∧
    (db.update screen dt = none ↔
       ((DivergentBullet.mk db.pos_x (db.origin_y - BULLET_SPEED_SLOW * dt)
           db.a db.b (db.total_time + dt)).rect.x > screen.1 ∨
        (DivergentBullet.mk db.pos_x (db.origin_y - BULLET_SPEED_SLOW * dt)
           db.a db.b (db.total_time + dt)).rect.x < 0 ∨
        (DivergentBullet.mk db.pos_x (db.origin_y - BULLET_SPEED_SLOW * dt)
           db.a db.b (db.total_time + dt)).rect.y > screen.2 ∨
        (DivergentBullet.mk db.pos_x (db.origin_y - BULLET_SPEED_SLOW * dt)
           db.a db.b (db.total_time + dt)).rect.y < 0)) := by
  refine ⟨?_, ?_, ?_⟩
  · by_cases h : rb.rect.x > screen.1 <;> simp [RectBullet.update, h]
  · by_cases h : (SineBullet.rect sine
        (SineBullet.mk sb.pos_x (sb.origin_y - BULLET_SPEED * dt)
          sb.amplitude sb.angular_vel (sb.total_time + dt))).x > screen.1 <;>
      simp [SineBullet.update, h]
  · by_cases h : ((DivergentBullet.mk db.pos_x (db.origin_y - BULLET_SPEED_SLOW * dt)
          db.a db.b (db.total_time + dt)).rect.x > screen.1 ∨
        (DivergentBullet.mk db.pos_x (db.origin_y - BULLET_SPEED_SLOW * dt)
          db.a db.b (db.total_time + dt)).rect.x < 0 ∨
        (DivergentBullet.mk db.pos_x (db.origin_y - BULLET_SPEED_SLOW * dt)
          db.a db.b (db.total_time + dt)).rect.y > screen.2 ∨
        (DivergentBullet.mk db.pos_x (db.origin_y - BULLET_SPEED_SLOW * dt)
          db.a db.b (db.total_time + dt)).rect.y < 0) <;>
      simp [DivergentBullet.update, h]

/-- Structure eta for `MaybeAlive`. -/
theorem MaybeAlive.mk_eta {α : Type} (b : MaybeAlive α) :
    MaybeAlive.mk b.alive b.value = b := rfl

/-- The bullet loop marks a bullet dead exactly when the trump overlaps
it, keeping its value; already-dead bullets stay dead. -/
theorem bulletsPass_fst (tr : Rectangle) (bs : List (MaybeAlive Rectangle)) :
    (bulletsPass tr bs).1 =
      bs.map (fun b => MaybeAlive.mk (b.alive && !(tr.overlaps b.value)) b.value) := by
  induction bs with
  | nil => rfl
  | cons b rest ih =>
      cases b with
      | mk alive value =>
          by_cases h : tr.overlaps value = true
          · simp [bulletsPass, ih, h]
          · have h' : tr.overlaps value = false := by simpa using h
            simp [bulletsPass, ih, h']

/-- The bullet loop reports the trump alive exactly when no bullet —
dead or alive — overlaps it. -/
theorem bulletsPass_snd (tr : Rectangle) (bs : List (MaybeAlive Rectangle)) :
    (bulletsPass tr bs).2 = bs.all (fun b => !(tr.overlaps b.value)) := by
  induction bs with
  | nil => rfl
  | cons b rest ih => simp [bulletsPass, ih]

/-- The bullet loop preserves bullet values, so any all-quantified test on
the values is unchanged. -/
theorem bulletsPass_all (tr t₂ : Rectangle) (bs : List (MaybeAlive Rectangle)) :
    ((bulletsPass tr bs).1).all (fun b => !(t₂.overlaps b.value)) =
      bs.all (fun b => !(t₂.overlaps b.value)) := by
  rw [bulletsPass_fst, List.all_map]
  rfl

/-- Full characterisation of the trump pass: a trump survives iff no
bullet overlaps it and it misses the player; a bullet's alive flag is
and-ed with "no trump overlaps it"; one explosion is appended per dead
trump, at its centre, in order; the player survives iff no trump overlaps
the player. -/
theorem trumpsPass_spec (p : Rectangle) (ts : List Rectangle) :
    ∀ (bs : List (MaybeAlive Rectangle)) (ex : List Explosion),
    (trumpsPass p ts bs ex).1 =
        ts.filter (fun t => bs.all (fun b => !(t.overlaps b.value)) && !(t.overlaps p)) ∧
    (trumpsPass p ts bs ex).2.1 =
        bs.map (fun b =>
          MaybeAlive.mk (b.alive && ts.all (fun t => !(t.overlaps b.value))) b.value) ∧
    (trumpsPass p ts bs ex).2.2.1 =
        ex ++ (ts.filter (fun t =>
          !(bs.all (fun b => !(t.overlaps b.value)) && !(t.overlaps p)))).map
            (fun t => explosionAtCenter t.center) ∧
    (trumpsPass p ts bs ex).2.2.2 = ts.all (fun t => !(t.overlaps p)) := by
  induction ts with
  | nil =>
      intro bs ex
      refine ⟨rfl, ?_, by simp [trumpsPass], rfl⟩
      simp [trumpsPass, MaybeAlive.mk_eta]
  | cons t rest ih =>
      intro bs ex
      obtain ⟨ih1, ih2, ih3, ih4⟩ := ih ((bulletsPass t bs).1)
        (if (bulletsPass t bs).2 && !(t.overlaps p) then ex
         else ex ++ [explosionAtCenter t.center])
      have hall : ∀ t₂ : Rectangle,
          ((bulletsPass t bs).1).all (fun b => !(t₂.overlaps b.value)) =
            bs.all (fun b => !(t₂.overlaps b.value)) :=
        fun t₂ => bulletsPass_all t t₂ bs
      by_cases hc : (bs.all (fun b => !(t.overlaps b.value)) && !(t.overlaps p)) = true
      · have hc' : ((bulletsPass t bs).2 && !(t.overlaps p)) = true := by
          rw [bulletsPass_snd]; exact hc
        simp only [hc', eq_self_iff_true, if_true] at ih1 ih2 ih3 ih4
        refine ⟨?_, ?_, ?_, ?_⟩
        · simp only [trumpsPass, hc', eq_self_iff_true, if_true]
          rw [ih1]
          simp only [hall, List.filter_cons, hc, if_true]
        · simp only [trumpsPass, hc', eq_self_iff_true, if_true]
          rw [ih2, bulletsPass_fst, List.map_map]
          congr 1
          funext b
          simp [Bool.and_assoc]
        · simp only [trumpsPass, hc', eq_self_iff_true, if_true]
          rw [ih3]
          simp only [hall, List.filter_cons, hc]
          simp
        · simp only [trumpsPass, hc', eq_self_iff_true, if_true]
          rw [ih4, List.all_cons]
      · have hc0 : (bs.all (fun b => !(t.overlaps b.value)) && !(t.overlaps p)) = false := by
          simpa using hc
        have hc' : ((bulletsPass t bs).2 && !(t.overlaps p)) = false := by
          rw [bulletsPass_snd]; exact hc0
        simp only [hc', Bool.false_eq_true, if_false] at ih1 ih2 ih3 ih4
        refine ⟨?_, ?_, ?_, ?_⟩
        · simp only [trumpsPass, hc', Bool.false_eq_true, if_false]
          rw [ih1]
          simp only [hall, List.filter_cons, hc0]
          simp
        · simp only [trumpsPass, hc', Bool.false_eq_true, if_false]
          rw [ih2, bulletsPass_fst, List.map_map]
          congr 1
          funext b
          simp [Bool.and_assoc]
        · simp only [trumpsPass, hc', Bool.false_eq_true, if_false]
          rw [ih3]
          simp only [hall, List.filter_cons, hc0]
          simp
        · simp only [trumpsPass, hc', Bool.false_eq_true, if_false]
          rw [ih4, List.all_cons]

/-- `List.all` over a mapped list tests the composite predicate (general
version for maps that change the element type). -/
theorem all_map_comp {α β : Type} (f : α → β) (l : List α) (p : β → Bool) :
    (l.map f).all p = l.all (p ∘ f) := by
  induction l with
  | nil => rfl
  | cons a rest ih => simp [ih, Function.comp]

/-- Dropping the dead transition bullets from an initially all-alive
population keeps exactly the bullets whose accumulated condition holds. -/
theorem filterMap_asOption_cond (c : Rectangle → Bool) (bullets : List Rectangle) :
    bullets.filterMap (fun b => MaybeAlive.as_option (MaybeAlive.mk (c b) b)) =
      bullets.filter c := by
  induction bullets with
  | nil => rfl
  | cons b rest ih =>
      rw [List.filterMap_cons, List.filter_cons, ih]
      by_cases h : c b = true
      · simp [MaybeAlive.as_option, h]
      · have h' : c b = false := by simpa using h
        simp [MaybeAlive.as_option, h']

/-- Claim C1 counterexample: one enemy overlapped by two bullets.  The
claim predicts that only the first bullet dies and the second survives the
pass; the code marks every overlapping bullet dead, so no bullet
survives. -/
theorem C1_first_match_counterexample :
    Rectangle.overlaps (Rectangle.mk 100 100 20 20) (Rectangle.mk 105 105 4 8) = true ∧
    Rectangle.overlaps (Rectangle.mk 100 100 20 20) (Rectangle.mk 106 105 4 8) = true ∧
    (collisionPass (Rectangle.mk 1000 1000 43 39)
      [Rectangle.mk 105 105 4 8, Rectangle.mk 106 105 4 8]
      [Rectangle.mk 100 100 20 20] []).1 = [] := by
  refine ⟨by norm_num [Rectangle.overlaps], by norm_num [Rectangle.overlaps], ?_⟩
  norm_num [collisionPass, trumpsPass, bulletsPass, MaybeAlive.as_option,
    Rectangle.overlaps]

/-- Claim C1 (amended): in the per-frame collision pass, every bullet
overlapping an enemy is marked dead — not only the first in iteration
order — and bullets already marked dead still participate in later
enemies' tests; a bullet survives the pass exactly when it overlaps no
enemy, and an enemy survives exactly when no bullet overlaps it and it
does not overlap the player. -/
theorem C1_collision_marks_every_overlap (p : Rectangle)
    (bullets trumps : List Rectangle) (ex : List Explosion) :
    (collisionPass p bullets trumps ex).1 =
      bullets.filter (fun b => trumps.all (fun t => !(t.overlaps b))) ∧
    (collisionPass p bullets trumps ex).2.1 =
      trumps.filter (fun t =>
        bullets.all (fun b => !(t.overlaps b)) && !(t.overlaps p)) := by
  obtain ⟨h1, h2, h3, h4⟩ :=
    trumpsPass_spec p trumps (bullets.map (fun b => MaybeAlive.mk true b)) ex
  constructor
  · simp only [collisionPass]
    rw [h2, List.filterMap_map, List.filterMap_map]
    exact filterMap_asOption_cond
      (fun v => trumps.all (fun t => !(t.overlaps v))) bullets
  · simp only [collisionPass]
    rw [h1]
    refine List.filter_congr ?_
    intro t ht
    rw [all_map_comp]
    rfl

/-- Claim C2 counterexample: the spec's own scenario — enemy
`⟨100,100,20,20⟩` and overlapping bullet `⟨105,105,4,8⟩`.  Both entities
are marked dead and removed, but exactly one explosion is appended — at
the enemy's centroid `(110,110)` — and none at the bullet's centroid
`(107,109)`, refuting "every entity (bullet or enemy) marked dead ... an
explosion ... is appended". -/
theorem C2_bullet_explosion_counterexample :
    (collisionPass (Rectangle.mk 1000 1000 43 39) [Rectangle.mk 105 105 4 8]
       [Rectangle.mk 100 100 20 20] []).1 = [] ∧
    (collisionPass (Rectangle.mk 1000 1000 43 39) [Rectangle.mk 105 105 4 8]
       [Rectangle.mk 100 100 20 20] []).2.1 = [] ∧
    (collisionPass (Rectangle.mk 1000 1000 43 39) [Rectangle.mk 105 105 4 8]
       [Rectangle.mk 100 100 20 20] []).2.2.1 =
      [explosionAtCenter ((Rectangle.mk 100 100 20 20).center)] ∧
    (explosionAtCenter ((Rectangle.mk 100 100 20 20).center)).rect.center =
      ((110 : ℚ), (110 : ℚ)) ∧
    (Rectangle.mk 105 105 4 8).center ≠ ((110 : ℚ), (110 : ℚ)) := by
  refine ⟨?_, ?_, ?_, ?_, ?_⟩ <;>
    norm_num [collisionPass, trumpsPass, bulletsPass, MaybeAlive.as_option,
      Rectangle.overlaps, explosionAtCenter, Rectangle.with_size,
      Rectangle.center_at, Rectangle.center, EXPLOSION_SIDE, Prod.ext_iff]

/-- Claim C2 (amended): every enemy marked dead in the collision pass is
removed from its population and exactly one explosion centred at its
former hitbox centroid is appended, in population order; dead bullets are
removed without spawning an explosion; deaths cannot feed back into the
pass, which reads only the populations fixed at its start. -/
theorem C2_death_effects (p : Rectangle) (bullets trumps : List Rectangle)
    (ex : List Explosion) :
    (collisionPass p bullets trumps ex).2.2.1 =
      ex ++ (trumps.filter (fun t =>
        !(bullets.all (fun b => !(t.overlaps b)) && !(t.overlaps p)))).map
          (fun t => explosionAtCenter t.center) ∧
    (∀ c : ℚ × ℚ, (explosionAtCenter c).rect.center = c) := by
  constructor
  · obtain ⟨h1, h2, h3, h4⟩ :=
      trumpsPass_spec p trumps (bullets.map (fun b => MaybeAlive.mk true b)) ex
    simp only [collisionPass]
    rw [h3]
    have hq : List.filter (fun t =>
        !(((bullets.map (fun b => MaybeAlive.mk true b)).all
            (fun b => !(t.overlaps b.value))) && !(t.overlaps p))) trumps =
        List.filter (fun t =>
          !((bullets.all (fun b => !(t.overlaps b))) && !(t.overlaps p))) trumps := by
      refine List.filter_congr ?_
      intro t ht
      rw [all_map_comp]
      rfl
    rw [hq]
  · intro c
    simp [explosionAtCenter, Rectangle.with_size, Rectangle.center_at,
      Rectangle.center, EXPLOSION_SIDE, Prod.ext_iff]

end Arcade
